import Mathlib

/-!
Verification development for the MeetGenAI UI repository.

Shallow embedding of:
* `src/UI/src/utils/storage.ts` (the meeting-history store over localStorage),
* `src/UI/src/utils/api.ts` (status polling transport),
* `NewMeetingForm` (validation and submission) from
  `src/UI/src/components/NameEntryModal.tsx`,
* `ExistingMeetingForm`'s direct localStorage read from
  `src/UI/src/components/ExistingMeetingForm.tsx`,
* `MeetingProcessModal`'s status-poll loop, and
* `App.handleJoinMeeting` from `src/UI/src/App.tsx`.

Impure platform primitives are made explicit parameters: `Date.now()`
becomes a `now : Nat` argument, `generateId()` a `newId : String`
argument, and `localStorage` an explicit `LocalStorage` value threaded
through the functions.  `JSON.parse` of a stored payload is modelled by a
two-case payload type (the serialized form of a well-typed value, or a
corrupt string on which parsing throws), since the store itself only ever
writes `JSON.stringify` of well-typed values and corruption arrives from
outside.
-/

/-! ### String helpers (models of JS string builtins) -/

/-- Does the list start with the given pattern?  (Helper for substring
containment, `String.prototype.includes`.) -/
def leadsWith [DecidableEq α] : List α → List α → Bool
  | [], _ => true
  | _ :: _, [] => false
  | a :: as, b :: bs => a == b && leadsWith as bs

/-- Does the list contain the pattern as a contiguous segment? -/
def containsSeg [DecidableEq α] (pat : List α) : List α → Bool
  | [] => pat.isEmpty
  | b :: bs => leadsWith pat (b :: bs) || containsSeg pat bs

/-- Model of JS `s.includes(pat)`: substring containment on the raw
string. -/
def strIncludes (s pat : String) : Bool :=
  containsSeg pat.toList s.toList

/-- Model of JS `s.trim()`: drop leading and trailing whitespace.
(Defined on the character list so that it reduces inside the kernel,
unlike `String.trim`.) -/
def jsTrim (s : String) : String :=
  String.mk
    (((s.toList.dropWhile Char.isWhitespace).reverse.dropWhile
        Char.isWhitespace).reverse)

/-- Split a character list at the first occurrence of `target`, returning
the parts before and after it, or `none` when `target` does not occur. -/
def splitAtChar (target : Char) : List Char → Option (List Char × List Char)
  | [] => none
  | c :: rest =>
    if c == target then some ([], rest)
    else
      match splitAtChar target rest with
      | some (l, r) => some (c :: l, r)
      | none => none

/-! ### URL model

`new URL(...)` is a browser builtin, not repository code.  We model it
restricted to absolute URLs of the form `scheme://host...`: a nonempty
scheme starting with a letter, the literal `://`, then a nonempty
hostname running up to the first `/`, `:`, `?` or `#`.  Scheme and
hostname are lowercased as the WHATWG parser does.  Any other shape is
rejected (`none`, modelling the constructor throwing), which covers every
meeting-link shape the validator distinguishes. -/

structure URLRec where
  scheme : String
  hostname : String
deriving DecidableEq, Repr

/-- Characters allowed in a URL scheme after the first letter. -/
def schemeChar (c : Char) : Bool :=
  c.isAlpha || c.isDigit || c == '+' || c == '-' || c == '.'

/-- Characters that terminate the hostname component. -/
def hostChar (c : Char) : Bool :=
  !(c == '/' || c == ':' || c == '?' || c == '#')

/-- Model of the WHATWG `new URL` constructor (see section comment):
`some` with scheme and hostname when the string parses, `none` when the
constructor would throw. -/
def urlParse (s : String) : Option URLRec :=
  let cs := s.toList
  let scheme := cs.takeWhile schemeChar
  let rest := cs.dropWhile schemeChar
  match scheme, rest with
  | c :: _, ':' :: '/' :: '/' :: rest2 =>
    if c.isAlpha then
      let host := rest2.takeWhile hostChar
      if host.isEmpty then none
      else
        some { scheme := String.mk (scheme.map Char.toLower)
               hostname := String.mk (host.map Char.toLower) }
    else none
  | _, _ => none

/-! ### Form validation (`NewMeetingForm`) -/

/-- `MeetingData` from `NewMeetingForm.tsx`: the meeting configuration a
user submits. -/
structure MeetingData where
  title : String
  link : String
  email : String
  password : String
deriving DecidableEq, Repr

/-- `NewMeetingForm.isValidUrl`: the link must parse as a URL (the
`try { new URL(url) }` guard) and the WHOLE link string must contain one
of the three platform names as a substring (`url.includes(...)`). -/
def isValidUrl (url : String) : Bool :=
  match urlParse url with
  | none => false
  | some _ =>
    strIncludes url "meet.google.com" || strIncludes url "zoom.us" ||
      strIncludes url "teams.microsoft.com"

/-- A character admitted by the regex class `[^\s@]`. -/
def isEmailChar (c : Char) : Bool :=
  !c.isWhitespace && c != '@'

/-- `NewMeetingForm.isValidEmail`, the regex
`^[^\s@]+@[^\s@]+\.[^\s@]+$`.  Since `[^\s@]` excludes `@`, the string
must contain exactly one `@`; the local part is the (nonempty) run before
it, and the domain must admit a split at some `.` with nonempty halves,
i.e. contain a `.` that is neither its first nor its last character. -/
def isValidEmail (email : String) : Bool :=
  match splitAtChar '@' email.toList with
  | none => false
  | some (loc, dom) =>
    !loc.isEmpty && loc.all isEmailChar && dom.all isEmailChar &&
      ((dom.drop 1).dropLast.contains '.')

/-- The per-field error record built by `NewMeetingForm.validateForm`
(`newErrors`); `none` means the field key is absent. -/
structure FormErrors where
  title : Option String
  link : Option String
  email : Option String
  password : Option String
deriving DecidableEq, Repr

/-- `NewMeetingForm.validateForm`: every field is checked and every
violation collected. -/
def validateForm (fd : MeetingData) : FormErrors :=
  { title :=
      if (jsTrim fd.title).isEmpty then some "Meeting title is required" else none
    link :=
      if (jsTrim fd.link).isEmpty then some "Meeting link is required"
      else if !isValidUrl fd.link then some "Please enter a valid meeting URL"
      else none
    email :=
      if (jsTrim fd.email).isEmpty then some "Email address is required"
      else if !isValidEmail fd.email then
        some "Please enter a valid email address"
      else none
    password :=
      if (jsTrim fd.password).isEmpty then some "Password is required" else none }

/-- `Object.keys(newErrors).length === 0`: no field has an error. -/
def FormErrors.clean (e : FormErrors) : Bool :=
  e.title.isNone && e.link.isNone && e.email.isNone && e.password.isNone

/-- Outcome of `NewMeetingForm.handleSubmit`: either validation fails and
the handler returns early with the collected errors, or the remote
`/api/join_meeting` request is issued with the form data. -/
inductive SubmitAction where
  | validationError (errors : FormErrors)
  | remoteJoin (fd : MeetingData)
deriving DecidableEq, Repr

/-- `NewMeetingForm.handleSubmit` up to the point the remote call is or
is not issued: `if (!validateForm()) return;` then `fetch(...)`. -/
def handleSubmit (fd : MeetingData) : SubmitAction :=
  let errs := validateForm fd
  if errs.clean then .remoteJoin fd else .validationError errs

/-! ### The meeting-history store (`storage.ts`) -/

/-- `StoredMeeting` from `storage.ts`.  Note there is no password
field. -/
structure StoredMeeting where
  id : String
  title : String
  email : String
  savedAt : Nat
  userName : Option String
deriving DecidableEq, Repr

/-- `UserData` from `storage.ts`. -/
structure UserData where
  name : String
  savedAt : Nat
deriving DecidableEq, Repr

/-- The raw payload stored under the `meetgenai_meetings` key: either the
serialized form of a meeting list (everything the store itself writes),
or a corrupt string on which `JSON.parse` throws. -/
inductive MeetingsPayload where
  | wellFormed (l : List StoredMeeting)
  | corrupt (s : String)
deriving DecidableEq, Repr

/-- The raw payload stored under the `meetgenai_user` key. -/
inductive UserPayload where
  | wellFormed (u : UserData)
  | corrupt (s : String)
deriving DecidableEq, Repr

/-- The two localStorage keys the app uses. -/
structure LocalStorage where
  userItem : Option UserPayload := none
  meetingsItem : Option MeetingsPayload := none
deriving DecidableEq, Repr

/-- `JSON.parse` on a meetings payload: returns the list, or throws
(`Except.error`) on a corrupt payload. -/
def jsonParseMeetings : MeetingsPayload → Except String (List StoredMeeting)
  | .wellFormed l => .ok l
  | .corrupt s => .error s

/-- `JSON.parse` on a user payload. -/
def jsonParseUser : UserPayload → Except String UserData
  | .wellFormed u => .ok u
  | .corrupt s => .error s

/-- `storage.getUser`: parse the stored payload inside try/catch; a
missing item or a parse error yields `null`. -/
def getUser (st : LocalStorage) : Option UserData :=
  match st.userItem with
  | none => none
  | some p =>
    match jsonParseUser p with
    | .ok u => some u
    | .error _ => none

/-- `storage.getMeetings`: parse the stored payload inside try/catch; a
missing item or a parse error yields the empty list. -/
def getMeetings (st : LocalStorage) : List StoredMeeting :=
  match st.meetingsItem with
  | none => []
  | some p =>
    match jsonParseMeetings p with
    | .ok l => l
    | .error _ => []

/-- `storage.saveMeeting`: build the new record (trimmed title and email,
current user's name, fresh id and timestamp), drop every stored record
with the same title and email, unshift the new record and keep only the
first 10. -/
def saveMeeting (title email : String) (now : Nat) (newId : String)
    (st : LocalStorage) : LocalStorage :=
  let meetings := getMeetings st
  let user := getUser st
  let newMeeting : StoredMeeting :=
    { id := newId, title := jsTrim title, email := jsTrim email, savedAt := now
      userName := user.map UserData.name }
  let filteredMeetings := meetings.filter fun m =>
    !(m.title == newMeeting.title && m.email == newMeeting.email)
  let recentMeetings := (newMeeting :: filteredMeetings).take 10
  { st with meetingsItem := some (.wellFormed recentMeetings) }

/-- The `useEffect` of `ExistingMeetingForm`, which bypasses
`getMeetings`:
`JSON.parse(localStorage.getItem('meetgenai_meetings') || '[]')`
with no try/catch.  A missing item falls back to `'[]'` (the empty
list); a corrupt payload makes `JSON.parse` throw, and the exception
propagates out of the component (`Except.error`). -/
def existingMeetingFormLoad (st : LocalStorage) :
    Except String (List StoredMeeting) :=
  match st.meetingsItem with
  | none => .ok []
  | some p => jsonParseMeetings p

/-! ### The status-poll loop (`MeetingProcessModal`) -/

/-- `ProcessStep` from `MeetingProcessModal.tsx`. -/
inductive ProcessStep where
  | joining
  | joined
  | ended
  | generating
  | completed
deriving DecidableEq, Repr

/-- The result of one `getStatus()` call: the status string on a 2xx
response, or a transport failure (non-ok response or network error, both
of which throw into the callback's catch). -/
inductive PollResult where
  | ok (status : String)
  | transportFailure
deriving DecidableEq, Repr

/-- The interval period passed to `setInterval` (milliseconds). -/
def pollIntervalMs : Nat := 10000

/-- The `switch (status)` of the poll callback: next step and progress
value.  `Transcription` and `Preprocessing` fall through to the same
branch; an unknown status hits `default`. -/
def statusSwitch (status : String) : ProcessStep × Nat :=
  if status == "not started" then (.joined, 25)
  else if status == "Transcription" || status == "Preprocessing" then
    (.ended, 50)
  else if status == "summary generation" then (.generating, 75)
  else if status == "completed" then (.completed, 100)
  else (.joining, 10)

/-- Observable state of the modal session: the React state
(`currentStep`, `progress`), whether the interval is still installed,
and bookkeeping traces — every value ever passed to `setCurrentStep`
(prefixed by the initial step), every payload passed to `onComplete`,
the number of status requests issued, and the wall-clock time (ms) of
the most recent fired tick. -/
structure ModalState where
  currentStep : ProcessStep
  progress : Nat
  intervalActive : Bool
  stepTrace : List ProcessStep
  completeCalls : List String
  pollCount : Nat
  clockMs : Nat
deriving DecidableEq, Repr

/-- The modal's state when the effect installs the interval:
`useState<ProcessStep>('joining')`, `useState(0)`. -/
def initModalState : ModalState :=
  { currentStep := .joining, progress := 0, intervalActive := true
    stepTrace := [.joining], completeCalls := [], pollCount := 0
    clockMs := 0 }

/-- The body of the async interval callback AFTER `await getStatus()`
resolves, applied to the state at resolution time.  On a transport
failure the catch branch only logs, changing nothing.  On a status: run
the switch; in the `completed` case `clearInterval` and `onComplete` run
inside the switch, and in every case `setCurrentStep` and `setProgress`
run after it.  Nothing in the body checks whether the interval is still
installed, so this function is total in the state. -/
def callbackBody (res : PollResult) (s : ModalState) : ModalState :=
  match res with
  | .transportFailure => s
  | .ok status =>
    let next := (statusSwitch status).1
    let prog := (statusSwitch status).2
    let s1 :=
      if status == "completed" then
        { s with intervalActive := false
                 completeCalls := s.completeCalls ++ ["Summary completed!"] }
      else s
    { s1 with currentStep := next, progress := prog
              stepTrace := s1.stepTrace ++ [next] }

/-- One fired interval tick: it fires `pollIntervalMs` after the previous
one, issues a status request, and (in the synchronous schedule, where the
request resolves before the next tick) runs the callback body on the
result. -/
def tickFire (res : PollResult) (s : ModalState) : ModalState :=
  callbackBody res
    { s with pollCount := s.pollCount + 1, clockMs := s.clockMs + pollIntervalMs }

/-- Run the interval against a schedule of poll results: each scheduled
tick fires only while the interval is installed; once `clearInterval`
has run (by the `completed` branch or the effect cleanup) no further
tick fires. -/
def runPolls : List PollResult → ModalState → ModalState
  | [], s => s
  | r :: rs, s => if s.intervalActive then runPolls rs (tickFire r s) else s

/-- The effect cleanup that runs when the modal closes
(`return () => clearInterval(interval)`): it clears the interval and
nothing else.  In particular it does not cancel a request already in
flight, whose continuation is `callbackBody`. -/
def cleanupEffect (s : ModalState) : ModalState :=
  { s with intervalActive := false }

/-! ### The app-level join handler (`App.handleJoinMeeting`) -/

/-- Outcome of the `/api/join_meeting` fetch in `handleJoinMeeting`:
2xx, a non-ok response (the thrown error is caught and logged), or a
network failure (likewise caught and logged). -/
inductive JoinOutcome where
  | success
  | httpError
  | networkError
deriving DecidableEq, Repr

/-- An externally visible action of `handleJoinMeeting`, in order. -/
inductive AppEvent where
  | savedMeeting (title email : String)
  | joinRequested (md : MeetingData)
deriving DecidableEq, Repr

/-- The app state `handleJoinMeeting` touches. -/
structure AppState where
  store : LocalStorage
  currentMeetingTitle : String
  showProcessModal : Bool
deriving DecidableEq, Repr

/-- `App.handleJoinMeeting`: save the meeting to localStorage FIRST, set
the modal title, show the process modal, and only then await the remote
join request; every failure of that request is caught and logged without
touching state.  Returns the final state and the ordered event trace. -/
def handleJoinMeeting (md : MeetingData) (outcome : JoinOutcome) (now : Nat)
    (newId : String) (s : AppState) : AppState × List AppEvent :=
  let s1 : AppState :=
    { store := saveMeeting md.title md.email now newId s.store
      currentMeetingTitle := md.title
      showProcessModal := true }
  let events := [.savedMeeting md.title md.email, .joinRequested md]
  match outcome with
  | .success => (s1, events)
  | .httpError => (s1, events)
  | .networkError => (s1, events)

/-! ### Helper lemmas -/

/-- Unfolding `saveMeeting` through `getMeetings`: the stored list is the
new record consed onto the filtered previous list, truncated to 10. -/
theorem getMeetings_save (t e : String) (n : Nat) (i : String)
    (st : LocalStorage) :
    getMeetings (saveMeeting t e n i st) =
      ({ id := i, title := jsTrim t, email := jsTrim e, savedAt := n
         userName := (getUser st).map UserData.name } ::
        (getMeetings st).filter fun m =>
          !(m.title == jsTrim t && m.email == jsTrim e)).take 10 := rfl

/-- `take` on a cons with the store's literal capacity. -/
theorem take_ten_cons (a : α) (l : List α) :
    (a :: l).take 10 = a :: l.take 9 := rfl

/-- No element surviving `filter (fun a => !(p a))` is counted by `p`,
even after truncation. -/
theorem countP_take_filter_not (p : α → Bool) (l : List α) (k : Nat) :
    ((l.filter fun a => !(p a)).take k).countP p = 0 := by
  rw [List.countP_eq_zero]
  intro a ha
  have ha2 : a ∈ l.filter fun a => !(p a) := List.take_subset k _ ha
  have hpa := (List.mem_filter.mp ha2).2
  simp only [Bool.not_eq_true'] at hpa
  simp [hpa]

/-- Once the interval is cleared, no scheduled tick ever fires. -/
theorem runPolls_inactive (rs : List PollResult) (s : ModalState)
    (h : s.intervalActive = false) : runPolls rs s = s := by
  cases rs with
  | nil => rfl
  | cons r rs => simp [runPolls, h]

/-- Splitting a poll schedule. -/
theorem runPolls_append (l1 l2 : List PollResult) (s : ModalState) :
    runPolls (l1 ++ l2) s = runPolls l2 (runPolls l1 s) := by
  induction l1 generalizing s with
  | nil => rfl
  | cons r rs ih =>
    cases hact : s.intervalActive with
    | true => simp [runPolls, hact, ih]
    | false => simp [runPolls, hact, runPolls_inactive _ _ hact]

/-! ### Concrete fixtures -/

/-- A store whose meeting-history payload is corrupt (unparseable). -/
def corruptStore : LocalStorage :=
  { userItem := none, meetingsItem := some (.corrupt "oops not json") }

/-- Eleven saves of pairwise distinct (title, email) pairs, oldest
(`t0`) first, starting from an empty store. -/
def elevenSavesStore : LocalStorage :=
  saveMeeting "t10" "e10" 110 "i10" (saveMeeting "t9" "e9" 109 "i9"
    (saveMeeting "t8" "e8" 108 "i8" (saveMeeting "t7" "e7" 107 "i7"
      (saveMeeting "t6" "e6" 106 "i6" (saveMeeting "t5" "e5" 105 "i5"
        (saveMeeting "t4" "e4" 104 "i4" (saveMeeting "t3" "e3" 103 "i3"
          (saveMeeting "t2" "e2" 102 "i2" (saveMeeting "t1" "e1" 101 "i1"
            (saveMeeting "t0" "e0" 100 "i0" {}))))))))))

/-- The ten newest of the eleven records, most recent first. -/
def expectedTenMeetings : List StoredMeeting :=
  [ ⟨"i10", "t10", "e10", 110, none⟩, ⟨"i9", "t9", "e9", 109, none⟩,
    ⟨"i8", "t8", "e8", 108, none⟩, ⟨"i7", "t7", "e7", 107, none⟩,
    ⟨"i6", "t6", "e6", 106, none⟩, ⟨"i5", "t5", "e5", 105, none⟩,
    ⟨"i4", "t4", "e4", 104, none⟩, ⟨"i3", "t3", "e3", 103, none⟩,
    ⟨"i2", "t2", "e2", 102, none⟩, ⟨"i1", "t1", "e1", 101, none⟩ ]

/-! ### Claim theorems: the history store -/

/-- Claim C8: for every stored state of the meeting-history key,
`getMeetings` never throws (it is a total function in the embedding): it
returns the persisted list when the payload parses, and the empty list
when no payload exists or the payload is corrupt. -/
theorem getMeetings_absorbs_corruption (st : LocalStorage) :
    (st.meetingsItem = none → getMeetings st = [])
    ∧ (∀ l, st.meetingsItem = some (.wellFormed l) → getMeetings st = l)
    ∧ (∀ s, st.meetingsItem = some (.corrupt s) → getMeetings st = []) := by
  refine ⟨fun h => ?_, fun l h => ?_, fun s h => ?_⟩ <;>
    simp [getMeetings, h, jsonParseMeetings]

/-- Witness for C8 at a concrete corrupt store. -/
theorem getMeetings_absorbs_corruption_witness :
    corruptStore.meetingsItem = some (.corrupt "oops not json")
    ∧ getMeetings corruptStore = [] :=
  ⟨rfl, (getMeetings_absorbs_corruption corruptStore).2.2 "oops not json" rfl⟩

/-- Claim C4, counterexample: on a corrupt persisted history the store
boundary (`getMeetings`) absorbs the corruption, but `ExistingMeetingForm`
reads the key directly with an unguarded `JSON.parse`, which throws
instead of behaving as if the history were empty. -/
theorem existing_form_throws_on_corrupt_history :
    existingMeetingFormLoad corruptStore = .error "oops not json"
    ∧ existingMeetingFormLoad corruptStore ≠ .ok []
    ∧ getMeetings corruptStore = [] :=
  ⟨rfl, by intro h; exact Except.noConfusion h, rfl⟩

/-- Claim C4, amended: for every store with a corrupt meeting-history
payload, `getMeetings` absorbs the corruption and returns the empty list,
while `ExistingMeetingForm`'s direct read propagates the parse error. -/
theorem corruption_absorbed_at_store_boundary (st : LocalStorage)
    (s : String) (h : st.meetingsItem = some (.corrupt s)) :
    getMeetings st = [] ∧ existingMeetingFormLoad st = .error s := by
  simp [getMeetings, existingMeetingFormLoad, h, jsonParseMeetings]

/-- Witness for the amended C4 at a concrete corrupt store. -/
theorem corruption_absorbed_at_store_boundary_witness :
    corruptStore.meetingsItem = some (.corrupt "oops not json")
    ∧ (getMeetings corruptStore = []
        ∧ existingMeetingFormLoad corruptStore = .error "oops not json") :=
  ⟨rfl, corruption_absorbed_at_store_boundary corruptStore "oops not json" rfl⟩

/-- Claim C5: saving the same (title, email) pair twice leaves exactly
one stored record with that key; it sits at the front of the list and its
`savedAt` is the second call's timestamp. -/
theorem save_twice_single_record (title email : String) (n1 n2 : Nat)
    (i1 i2 : String) (st : LocalStorage) :
    (∃ rec,
        (getMeetings (saveMeeting title email n2 i2
          (saveMeeting title email n1 i1 st))).head? = some rec
        ∧ rec.title = jsTrim title ∧ rec.email = jsTrim email
        ∧ rec.savedAt = n2)
    ∧ (getMeetings (saveMeeting title email n2 i2
        (saveMeeting title email n1 i1 st))).countP
        (fun m => m.title == jsTrim title && m.email == jsTrim email) = 1 := by
  rw [getMeetings_save, take_ten_cons]
  refine ⟨⟨_, rfl, rfl, rfl, rfl⟩, ?_⟩
  rw [List.countP_cons, countP_take_filter_not]
  simp

/-- Claim C6: the stored history never exceeds 10 records after any
save, and saving 11 distinct (title, email) pairs in sequence leaves
exactly the 10 newest, most recent first, with the oldest (`t0`)
evicted. -/
theorem history_capped_at_ten_mru :
    (∀ (t e : String) (n : Nat) (i : String) (st : LocalStorage),
        (getMeetings (saveMeeting t e n i st)).length ≤ 10)
    ∧ getMeetings elevenSavesStore = expectedTenMeetings
    ∧ (∀ m ∈ getMeetings elevenSavesStore, m.title ≠ "t0") := by
  refine ⟨fun t e n i st => ?_, rfl, by decide⟩
  rw [getMeetings_save]
  exact List.length_take_le ..

/-- Claim C9: the persisted history is independent of the password (and
of the link): two meeting configurations agreeing on title and email
leave identical stores through the app-level join handler, whatever
their passwords. -/
theorem password_never_persisted (md1 md2 : MeetingData) (o : JoinOutcome)
    (n : Nat) (i : String) (s : AppState)
    (ht : md1.title = md2.title) (he : md1.email = md2.email) :
    (handleJoinMeeting md1 o n i s).1.store =
      (handleJoinMeeting md2 o n i s).1.store := by
  cases o <;> simp [handleJoinMeeting, ht, he]

/-- Witness for C9: two concrete configurations differing only in the
password persist identical stores. -/
theorem password_never_persisted_witness :
    (⟨"Standup", "https://meet.google.com/abc", "a@b.com", "pw-one"⟩ :
        MeetingData).password ≠
      (⟨"Standup", "https://meet.google.com/abc", "a@b.com", "pw-two"⟩ :
        MeetingData).password
    ∧ (handleJoinMeeting
          ⟨"Standup", "https://meet.google.com/abc", "a@b.com", "pw-one"⟩
          .success 5 "id1" ⟨{}, "", false⟩).1.store =
        (handleJoinMeeting
          ⟨"Standup", "https://meet.google.com/abc", "a@b.com", "pw-two"⟩
          .success 5 "id1" ⟨{}, "", false⟩).1.store :=
  ⟨by decide,
    password_never_persisted _ _ .success 5 "id1" ⟨{}, "", false⟩ rfl rfl⟩

/-- Claim C10: the app-level join handler saves the meeting to the
history store before the remote join request is awaited, so a history
record for the (trimmed) pair exists afterwards regardless of whether
the join request succeeds, is rejected, or is unreachable. -/
theorem meeting_saved_regardless_of_join_outcome (md : MeetingData)
    (o : JoinOutcome) (n : Nat) (i : String) (s : AppState) :
    (getMeetings (handleJoinMeeting md o n i s).1.store).head? =
      some { id := i, title := jsTrim md.title, email := jsTrim md.email
             savedAt := n, userName := (getUser s.store).map UserData.name }
    ∧ (handleJoinMeeting md o n i s).2 =
        [.savedMeeting md.title md.email, .joinRequested md] := by
  cases o <;> refine ⟨?_, rfl⟩ <;>
    · show (getMeetings (saveMeeting md.title md.email n i s.store)).head? = _
      rw [getMeetings_save, take_ten_cons]
      rfl

/-! ### Claim theorems: link validation -/

/-- The platform allow-list named by the specification. -/
def allowedHostnames : List String :=
  ["meet.google.com", "zoom.us", "teams.microsoft.com"]

/-- Spec-side link validity (for refinement comparison with the code's
`isValidUrl`): the link parses as a URL AND its HOSTNAME is one of the
allow-listed platforms. -/
def specLinkValid (link : String) : Bool :=
  match urlParse link with
  | none => false
  | some u => allowedHostnames.contains u.hostname

/-- A configuration whose link hostname is NOT allow-listed but whose
link string contains `zoom.us` as a substring; all other fields pass
validation. -/
def c3Config : MeetingData :=
  { title := "Team Sync", link := "https://evil.example/zoom.us"
    email := "a@b.co", password := "pw" }

/-- Claim C3, counterexample: `c3Config`'s link hostname is
`evil.example`, not allow-listed, yet `handleSubmit` issues the remote
join call instead of returning a validation error, because the code
checks substring containment on the whole link string rather than the
hostname. -/
theorem hostname_allowlist_counterexample :
    (urlParse c3Config.link).map URLRec.hostname = some "evil.example"
    ∧ specLinkValid c3Config.link = false
    ∧ handleSubmit c3Config = .remoteJoin c3Config := by
  refine ⟨rfl, by decide, rfl⟩

/-- Claim C3, amended: whenever the code's URL check fails — the link
does not parse as a URL, or the link string does not contain any of the
substrings `meet.google.com`, `zoom.us`, `teams.microsoft.com` —
submission returns the collected validation errors and no remote join
call is issued. -/
theorem invalid_link_blocks_remote_join (fd : MeetingData)
    (h : isValidUrl fd.link = false) :
    handleSubmit fd = .validationError (validateForm fd)
    ∧ ∀ fd2, handleSubmit fd ≠ .remoteJoin fd2 := by
  have hlink : ∃ msg, (validateForm fd).link = some msg := by
    simp only [validateForm]
    by_cases htrim : (jsTrim fd.link).isEmpty = true
    · simp [htrim]
    · simp only [Bool.not_eq_true] at htrim
      simp [htrim, h]
  have hclean : (validateForm fd).clean = false := by
    obtain ⟨msg, hmsg⟩ := hlink
    simp [FormErrors.clean, hmsg]
  refine ⟨?_, fun fd2 hcontra => ?_⟩
  · simp [handleSubmit, hclean]
  · simp [handleSubmit, hclean] at hcontra

/-- Witness for the amended C3: a link that parses but names no
allow-listed platform is rejected before any remote call. -/
theorem invalid_link_blocks_remote_join_witness :
    isValidUrl "https://example.com/abc" = false
    ∧ handleSubmit
        { title := "T", link := "https://example.com/abc"
          email := "a@b.co", password := "p" } =
      .validationError (validateForm
        { title := "T", link := "https://example.com/abc"
          email := "a@b.co", password := "p" }) :=
  ⟨by decide,
    (invalid_link_blocks_remote_join
      { title := "T", link := "https://example.com/abc"
        email := "a@b.co", password := "p" } (by decide)).1⟩

/-! ### Claim theorems: the status-poll loop -/

/-- The remote status sequence of the nominal session. -/
def happyPath : List PollResult :=
  [.ok "not started", .ok "Transcription", .ok "summary generation",
   .ok "completed"]

/-- Claim C1: the poll sequence `not started`, `Transcription`,
`summary generation`, `completed` drives the modal through
joining → joined → ended → generating → completed in exactly that order,
invokes `onComplete` exactly once, and issues no further poll after the
stage reaches completed, whatever else is scheduled. -/
theorem happy_path_lifecycle (extra : List PollResult) :
    (runPolls (happyPath ++ extra) initModalState).stepTrace =
      [.joining, .joined, .ended, .generating, .completed]
    ∧ (runPolls (happyPath ++ extra) initModalState).completeCalls =
        ["Summary completed!"]
    ∧ (runPolls (happyPath ++ extra) initModalState).pollCount = 4 := by
  have hrun : runPolls (happyPath ++ extra) initModalState =
      runPolls extra (runPolls happyPath initModalState) :=
    runPolls_append ..
  have hstop : (runPolls happyPath initModalState).intervalActive = false :=
    rfl
  rw [hrun, runPolls_inactive extra _ hstop]
  exact ⟨rfl, rfl, rfl⟩

/-- The modal state after the `Joined` stage, with the second poll
request in flight (already issued, not yet resolved). -/
def inFlightState : ModalState :=
  { currentStep := .joined, progress := 25, intervalActive := true
    stepTrace := [.joining, .joined], completeCalls := [], pollCount := 2
    clockMs := 20000 }

/-- Claim C2, counterexample: cancel (the effect cleanup clears the
interval) while a poll is in flight; when that poll resolves with
`completed`, its continuation still runs: it invokes `onComplete` and
mutates the stage after cancellation. -/
theorem cancellation_race_counterexample :
    (callbackBody (.ok "completed") (cleanupEffect inFlightState)).completeCalls
      = ["Summary completed!"]
    ∧ (cleanupEffect inFlightState).completeCalls = []
    ∧ (callbackBody (.ok "completed") (cleanupEffect inFlightState)).currentStep
        ≠ (cleanupEffect inFlightState).currentStep := by
  refine ⟨rfl, rfl, by decide⟩

/-- Claim C2, amended: once cancellation is requested, no SCHEDULED poll
tick ever fires again — the state is exactly the state at cancellation,
whatever results the schedule would have delivered.  (A poll in flight at
the moment of cancellation is not covered: its continuation still runs,
as the counterexample shows.) -/
theorem cancellation_stops_scheduled_polls (rs : List PollResult)
    (s : ModalState) :
    runPolls rs (cleanupEffect s) = cleanupEffect s :=
  runPolls_inactive rs _ rfl

/-- Claim C7: a transport failure on a poll tick leaves the stage,
progress, trace and completion calls unchanged, keeps the interval
installed, advances the clock by the configured 10-second interval, and
the next scheduled tick still fires. -/
theorem transport_failure_keeps_polling (s : ModalState) (r : PollResult)
    (rs : List PollResult) (h : s.intervalActive = true) :
    (tickFire .transportFailure s).currentStep = s.currentStep
    ∧ (tickFire .transportFailure s).progress = s.progress
    ∧ (tickFire .transportFailure s).stepTrace = s.stepTrace
    ∧ (tickFire .transportFailure s).completeCalls = s.completeCalls
    ∧ (tickFire .transportFailure s).intervalActive = true
    ∧ (tickFire .transportFailure s).clockMs = s.clockMs + pollIntervalMs
    ∧ pollIntervalMs = 10000
    ∧ runPolls (.transportFailure :: r :: rs) s =
        runPolls rs (tickFire r (tickFire .transportFailure s)) := by
  refine ⟨rfl, rfl, rfl, rfl, h, rfl, rfl, ?_⟩
  show (if s.intervalActive then
      runPolls (r :: rs) (tickFire .transportFailure s) else s) = _
  rw [h]
  show (if (tickFire .transportFailure s).intervalActive then
      runPolls rs (tickFire r (tickFire .transportFailure s))
    else tickFire .transportFailure s) = _
  have hact : (tickFire .transportFailure s).intervalActive = true := h
  simp [hact]

/-- Witness for C7 at the initial modal state. -/
theorem transport_failure_keeps_polling_witness :
    initModalState.intervalActive = true
    ∧ (tickFire .transportFailure initModalState).currentStep =
        initModalState.currentStep :=
  ⟨rfl,
    (transport_failure_keeps_polling initModalState (.ok "completed") []
      rfl).1⟩
